import Mathlib

/-!
Verification of the scraping-engine core of `ctcityscraper`.

The development shallowly embeds the engine's Python modules:

* `src/engine/hash.py`   — canonical row hashing (`compute_row_hash`);
* `src/engine/database.py` — the `ParquetWriter` (hash cache, `write_batch`,
  checkpoints, `compact`);
* `src/engine/engine.py` — the `RateLimiter` and the `run_load` /
  `run_refresh` orchestration loop.

Python dicts are embedded as association lists (insertion-ordered, keys
unique where the source guarantees it), machine-level byte strings as
`List Nat` with every element below 256, wall-clock times as rationals, and
fallible steps as explicit sum results.
-/

namespace CtScraper

/-! ## Row values and Python `str` rendering

Row values flowing through `compute_row_hash` are scalars: strings, ints,
booleans, naive datetimes, or Python `None`.  `Value.pyStr` embeds Python's
`str()` on these values: decimal rendering for integers, `True`/`False` for
booleans, and `datetime.__str__` (ISO-8601 fields, space separator,
microseconds only when non-zero) for timestamps. -/

/-- A naive Python `datetime` value (no timezone), as produced and consumed
by the engine. -/
structure PyDateTime where
  year : Nat
  month : Nat
  day : Nat
  hour : Nat
  minute : Nat
  second : Nat
  microsecond : Nat
deriving DecidableEq, Repr

/-- The scalar values a row column can hold. -/
inductive Value where
  | none
  | str (s : String)
  | int (n : Int)
  | bool (b : Bool)
  | timestamp (t : PyDateTime)
deriving DecidableEq, Repr

/-- Left-pad a decimal rendering with zeros to width `w`. -/
def padZeros (w : Nat) (s : String) : String :=
  String.mk (List.replicate (w - s.length) '0') ++ s

/-- Python `str(datetime)`: `YYYY-MM-DD HH:MM:SS` plus `.uuuuuu` when the
microsecond field is non-zero (ISO-8601 fields with a space separator). -/
def PyDateTime.pyStr (t : PyDateTime) : String :=
  padZeros 4 (toString t.year) ++ "-" ++ padZeros 2 (toString t.month) ++ "-"
    ++ padZeros 2 (toString t.day) ++ " " ++ padZeros 2 (toString t.hour)
    ++ ":" ++ padZeros 2 (toString t.minute) ++ ":"
    ++ padZeros 2 (toString t.second)
    ++ (if t.microsecond = 0 then "" else "." ++ padZeros 6 (toString t.microsecond))

/-- Python `str()` on a row value. -/
def Value.pyStr : Value → String
  | .none => "None"
  | .str s => s
  | .int n => toString n
  | .bool b => if b then "True" else "False"
  | .timestamp t => t.pyStr

/-- Returns `true` exactly for Python `None`. -/
def Value.isNone : Value → Bool
  | .none => true
  | _ => false

/-- A row: an insertion-ordered Python dict from column name to value. -/
abbrev Row := List (String × Value)

/-! ## Canonical JSON serialization (`json.dumps(..., sort_keys=True)`)

All serialized values are strings (the dict comprehension in
`compute_row_hash` applies `str` first), so only JSON string escaping and
object layout are needed.  `json.dumps` defaults apply: `ensure_ascii=True`
(everything outside printable ASCII is `\uXXXX`-escaped, with surrogate
pairs above the BMP) and `", "` / `": "` separators. -/

/-- The sixteen lowercase hex digit characters. -/
def hexChars : List Char := String.toList ("0123456789abcdef")

/-- Lowercase hex digit of `n % 16`. -/
def hexDigitChar (n : Nat) : Char := hexChars.getD (n % 16) '0'

/-- Four-digit lowercase hex rendering of `n < 0x10000`. -/
def toHex4 (n : Nat) : String :=
  String.mk [hexDigitChar (n / 4096), hexDigitChar (n / 256),
             hexDigitChar (n / 16), hexDigitChar n]

/-- Escape one character exactly as CPython's
`json.encoder.py_encode_basestring_ascii` does. -/
def jsonEscapeChar (c : Char) : String :=
  let n := c.toNat
  if n = 34 then "\\\""
  else if n = 92 then "\\\\"
  else if n = 8 then "\\b"
  else if n = 9 then "\\t"
  else if n = 10 then "\\n"
  else if n = 12 then "\\f"
  else if n = 13 then "\\r"
  else if 32 ≤ n && n ≤ 126 then String.singleton c
  else if n < 65536 then "\\u" ++ toHex4 n
  else
    "\\u" ++ toHex4 (55296 + (n - 65536) / 1024)
      ++ "\\u" ++ toHex4 (56320 + (n - 65536) % 1024)

/-- JSON-escape a string. -/
def jsonEscape (s : String) : String :=
  String.join (s.toList.map jsonEscapeChar)

/-- A JSON string literal. -/
def jsonQuote (s : String) : String := "\"" ++ jsonEscape s ++ "\""

/-- Ordered insertion by key, comparing keys as Python compares strings:
lexicographically by code point (`toList` order).  Python's tuple `sorted`
compares keys first; dict keys are unique, so values are never compared. -/
def insertByKey {α : Type} (p : String × α) : List (String × α) → List (String × α)
  | [] => [p]
  | q :: rest =>
    if p.1.toList ≤ q.1.toList then p :: q :: rest else q :: insertByKey p rest

/-- Sort an association list by key. -/
def sortByKey {α : Type} (l : List (String × α)) : List (String × α) :=
  l.foldr insertByKey []

/-- Embedding of `json.dumps` of a string-to-string dict with `sort_keys=True`. -/
def jsonObjSorted (l : List (String × String)) : String :=
  "\x7b" ++ String.intercalate (", ")
      ((sortByKey l).map (fun kv => jsonQuote kv.1 ++ (": ") ++ jsonQuote kv.2))
    ++ "\x7d"

/-! ## UTF-8 and MD5 -/

/-- UTF-8 encoding of one character (code point already valid, as Lean
`Char` guarantees). -/
def utf8EncodeChar (c : Char) : List Nat :=
  let n := c.toNat
  if n < 128 then [n]
  else if n < 2048 then [192 + n / 64, 128 + n % 64]
  else if n < 65536 then [224 + n / 4096, 128 + n / 64 % 64, 128 + n % 64]
  else [240 + n / 262144, 128 + n / 4096 % 64, 128 + n / 64 % 64, 128 + n % 64]

/-- UTF-8 bytes of a string. -/
def utf8Bytes (s : String) : List Nat :=
  (s.toList.map utf8EncodeChar).flatten

/-- The constant `2 ^ 32`, the word modulus of MD5. -/
def M32 : Nat := 4294967296

/-- Rotate the low 32 bits of `x` left by `n`. -/
def rotl32 (x n : Nat) : Nat :=
  ((x <<< n) % M32) ||| ((x % M32) >>> (32 - n))

/-- The 64 MD5 sine-derived constants. -/
def md5K : List Nat :=
  [3614090360, 3905402710, 606105819, 3250441966, 4118548399, 1200080426,
   2821735955, 4249261313, 1770035416, 2336552879, 4294925233, 2304563134,
   1804603682, 4254626195, 2792965006, 1236535329, 4129170786, 3225465664,
   643717713, 3921069994, 3593408605, 38016083, 3634488961, 3889429448,
   568446438, 3275163606, 4107603335, 1163531501, 2850285829, 4243563512,
   1735328473, 2368359562, 4294588738, 2272392833, 1839030562, 4259657740,
   2763975236, 1272893353, 4139469664, 3200236656, 681279174, 3936430074,
   3572445317, 76029189, 3654602809, 3873151461, 530742520, 3299628645,
   4096336452, 1126891415, 2878612391, 4237533241, 1700485571, 2399980690,
   4293915773, 2240044497, 1873313359, 4264355552, 2734768916, 1309151649,
   4149444226, 3174756917, 718787259, 3951481745]

/-- The 64 MD5 per-round left-rotation amounts. -/
def md5S : List Nat :=
  [7, 12, 17, 22, 7, 12, 17, 22, 7, 12, 17, 22, 7, 12, 17, 22,
   5, 9, 14, 20, 5, 9, 14, 20, 5, 9, 14, 20, 5, 9, 14, 20,
   4, 11, 16, 23, 4, 11, 16, 23, 4, 11, 16, 23, 4, 11, 16, 23,
   6, 10, 15, 21, 6, 10, 15, 21, 6, 10, 15, 21, 6, 10, 15, 21]

/-- The MD5 round function for round `i`. -/
def md5F (i b c d : Nat) : Nat :=
  if i < 16 then (b &&& c) ||| ((4294967295 ^^^ b) &&& d)
  else if i < 32 then (d &&& b) ||| ((4294967295 ^^^ d) &&& c)
  else if i < 48 then b ^^^ c ^^^ d
  else c ^^^ (b ||| (4294967295 ^^^ d))

/-- The MD5 message-word index for round `i`. -/
def md5G (i : Nat) : Nat :=
  if i < 16 then i
  else if i < 32 then (5 * i + 1) % 16
  else if i < 48 then (3 * i + 5) % 16
  else (7 * i) % 16

/-- One MD5 round on state `(a, b, c, d)` with message words `m`. -/
def md5Round (m : List Nat) (st : Nat × Nat × Nat × Nat) (i : Nat) :
    Nat × Nat × Nat × Nat :=
  let a := st.1
  let b := st.2.1
  let c := st.2.2.1
  let d := st.2.2.2
  let x := (a + md5F i b c d + md5K.getD i 0 + m.getD (md5G i) 0) % M32
  (d, (b + rotl32 x (md5S.getD i 0)) % M32, b, c)

/-- Assemble a little-endian 32-bit word from four bytes. -/
def leWord (b0 b1 b2 b3 : Nat) : Nat :=
  b0 + 256 * b1 + 65536 * b2 + 16777216 * b3

/-- Split a 64-byte chunk into sixteen little-endian words. -/
def chunkWords : List Nat → List Nat
  | b0 :: b1 :: b2 :: b3 :: rest => leWord b0 b1 b2 b3 :: chunkWords rest
  | _ => []

/-- Process one 64-byte chunk against the running MD5 state. -/
def processChunk (st : Nat × Nat × Nat × Nat) (chunk : List Nat) :
    Nat × Nat × Nat × Nat :=
  let m := chunkWords chunk
  let r := (List.range 64).foldl (md5Round m) st
  ((st.1 + r.1) % M32, (st.2.1 + r.2.1) % M32,
   (st.2.2.1 + r.2.2.1) % M32, (st.2.2.2 + r.2.2.2) % M32)

/-- Split a byte sequence into 64-byte chunks; `fuel` bounds the number of
chunks (the caller passes the list length, always sufficient). -/
def chunksAux : Nat → List Nat → List (List Nat)
  | 0, _ => []
  | _, [] => []
  | fuel + 1, x :: rest =>
    ((x :: rest).take 64) :: chunksAux fuel ((x :: rest).drop 64)

/-- Split a byte sequence into 64-byte chunks. -/
def chunks64 (l : List Nat) : List (List Nat) := chunksAux l.length l

/-- MD5 padding: `0x80`, zeros to 56 mod 64, then the 64-bit little-endian
bit length. -/
def md5Pad (msg : List Nat) : List Nat :=
  let len := msg.length
  let bl := 8 * len
  msg ++ [128] ++ List.replicate ((119 - len % 64) % 64) 0
    ++ [bl % 256, bl / 256 % 256, bl / 65536 % 256, bl / 16777216 % 256,
        bl / 4294967296 % 256, bl / 1099511627776 % 256,
        bl / 281474976710656 % 256, bl / 72057594037927936 % 256]

/-- The four bytes of a 32-bit word, little-endian. -/
def wordLEBytes (w : Nat) : List Nat :=
  [w % 256, w / 256 % 256, w / 65536 % 256, w / 16777216 % 256]

/-- The 16-byte MD5 digest of a byte sequence. -/
def md5Digest (msg : List Nat) : List Nat :=
  let r := (chunks64 (md5Pad msg)).foldl processChunk
    (1732584193, 4023233417, 2562383102, 271733878)
  wordLEBytes r.1 ++ wordLEBytes r.2.1 ++ wordLEBytes r.2.2.1 ++ wordLEBytes r.2.2.2

/-- Lowercase 32-character hex rendering of the MD5 digest. -/
def md5Hex (msg : List Nat) : String :=
  String.mk (((md5Digest msg).map
    (fun b => [hexDigitChar (b / 16), hexDigitChar b])).flatten)

/-! ## `compute_row_hash` (src/engine/hash.py) -/

/-- The set `_DEFAULT_EXCLUDE`: fields never part of the content hash. -/
def defaultExclude : List String :=
  ["id", "version", "row_hash", "effective_from", "effective_to",
   "is_current", "loaded_at", "updated_at", "created_at", "scraped_at",
   "city_id", "vgsi_url", "photo_paths", "photo_local_path"]

/-- The dict comprehension of `compute_row_hash`: iterate the row's items in
sorted order, keep pairs whose key is not excluded and whose value is not
`None`, and apply `str` to each kept value. -/
def hashData (data : Row) (exclude : List String) : List (String × String) :=
  ((sortByKey data).filter
      (fun kv => !(exclude.contains kv.1) && !(kv.2.isNone))).map
    (fun kv => (kv.1, kv.2.pyStr))

/-- Embedding of `compute_row_hash(data, extra_exclude)`: MD5 hex of the sorted-key JSON
serialization of the stringified, exclusion-filtered row. -/
def compute_row_hash (data : Row) (extraExclude : List String) : String :=
  md5Hex (utf8Bytes (jsonObjSorted (hashData data (defaultExclude ++ extraExclude))))

/-! ## `ParquetWriter` (src/engine/database.py)

Hash-cache sets are embedded as lists read up to membership; table
directories and the checkpoint store as association lists.  File contents on
disk are kept symbolically (table, file name, rows). -/

/-- Python dict assignment `d[k] = v`: overwrite in place, else append. -/
def assocSet {α : Type} (d : List (String × α)) (k : String) (v : α) :
    List (String × α) :=
  match d with
  | [] => [(k, v)]
  | (k', v') :: rest => if k' = k then (k, v) :: rest else (k', v') :: assocSet rest k v

/-- Python dict lookup `d.get(k)`. -/
def assocGet {α : Type} (d : List (String × α)) (k : String) : Option α :=
  match d with
  | [] => Option.none
  | (k', v') :: rest => if k' = k then some v' else assocGet rest k

/-- A parquet file the writer has emitted: table, file name, rows. -/
structure ParquetFile where
  table : String
  name : String
  rows : List Row
deriving DecidableEq, Repr

/-- The mutable state of a `ParquetWriter`: the session timestamp chosen at
construction, the optional preloaded hash cache (`_existing_hashes`), the
session counters and batch number, and the files written so far. -/
structure WriterState where
  sessionTs : String
  cache : Option (List (String × List String))
  rowsWritten : Nat
  rowsSkipped : Nat
  batchNum : Nat
  files : List ParquetFile
deriving DecidableEq, Repr

/-- The two in-row mutations of `write_batch`: set `scraped_at` to the batch
timestamp, then set `row_hash` to the content hash of the row as it stands
(with `scraped_at` present, both keys excluded from the hash itself). -/
def augmentRow (now : PyDateTime) (r : Row) : Row :=
  let r1 := assocSet r ("scraped_at") (Value.timestamp now)
  assocSet r1 ("row_hash") (Value.str (compute_row_hash r1 []))

/-- Read back `row["row_hash"]` (always a string after augmentation). -/
def rowHashOf (r : Row) : String :=
  match assocGet r ("row_hash") with
  | some (Value.str h) => h
  | _ => ""

/-- Embedding of `get_write_stats()`. -/
def getWriteStats (st : WriterState) : Nat × Nat := (st.rowsWritten, st.rowsSkipped)

/-- The file name `write_batch` gives a table's batch file:
`<session_ts>_<batch:04d>.parquet`. -/
def batchFileName (sessionTs : String) (batchNum : Nat) : String :=
  sessionTs ++ "_" ++ padZeros 4 (toString batchNum) ++ ".parquet"

/-- The per-table body of `write_batch`: augment the rows, then — when the
hash cache is active — drop rows whose hash is cached for this table, count
them as skipped, record the survivors' hashes, and write survivors (if any)
to a fresh batch file, counting them as written. -/
def writeTable (now : PyDateTime) (batchNum : Nat) (st : WriterState)
    (tableName : String) (rows : List Row) : WriterState :=
  if rows.isEmpty then st else
  let arows := rows.map (augmentRow now)
  match st.cache with
  | Option.none =>
    { st with rowsWritten := st.rowsWritten + arows.length,
              files := st.files
                ++ [⟨tableName, batchFileName st.sessionTs batchNum, arows⟩] }
  | some m =>
    let known := (assocGet m tableName).getD []
    let newRows := arows.filter (fun r => !(known.contains (rowHashOf r)))
    let st1 := { st with
      cache := some (assocSet m tableName (known ++ newRows.map rowHashOf)),
      rowsSkipped := st.rowsSkipped + (arows.length - newRows.length) }
    if newRows.isEmpty then st1
    else
      { st1 with rowsWritten := st1.rowsWritten + newRows.length,
                 files := st1.files
                   ++ [⟨tableName, batchFileName st.sessionTs batchNum, newRows⟩] }

/-- Embedding of `write_batch` after `flatten_fn`: the source's flatten callback is an
external collaborator, so the model takes its output (the per-table row
lists) directly.  The batch number is read and incremented once up front and
shared by every table of the call. -/
def writeBatch (now : PyDateTime) (st : WriterState)
    (tables : List (String × List Row)) : WriterState :=
  let bn := st.batchNum
  let st1 := { st with batchNum := st.batchNum + 1 }
  tables.foldl (fun s kv => writeTable now bn s kv.1 kv.2) st1

/-- Glob match for `compact`: `<session_ts>_*.parquet`. -/
def matchesSession (ts name : String) : Bool :=
  (ts ++ "_").toList.isPrefixOf name.toList
    && (".parquet").toList.isSuffixOf name.toList

/-- Embedding of `compact()` on one table directory (file names only): list the files of
this session; with at most one, do nothing; otherwise merge them into
`<session_ts>.parquet` and delete the constituents. -/
def compactTable (ts : String) (files : List String) : List String :=
  let sessionFiles := files.filter (matchesSession ts)
  if sessionFiles.length ≤ 1 then files
  else files.filter (fun f => !(matchesSession ts f)) ++ [ts ++ ".parquet"]

/-- Embedding of `compact()` across the scope directory. -/
def compact (ts : String) (dirs : List (String × List String)) :
    List (String × List String) :=
  dirs.map (fun d => (d.1, compactTable ts d.2))

/-! ## `RateLimiter` (src/engine/engine.py)

Wall-clock instants and durations are rationals.  The semaphore is recorded
by its capacity; the claims about it concern only that capacity. -/

/-- The `RateLimiter` state: semaphore capacity, minimum inter-request interval,
the optimistically reserved next slot, and the observational counters. -/
structure RateLimiter where
  maxWorkers : Nat
  minInterval : ℚ
  lastRequestTime : ℚ
  totalRequests : Nat
  totalWaitTime : ℚ
deriving DecidableEq, Repr

/-- Embedding of `RateLimiter.__init__`: `min_interval = 1/rps` when `rps > 0`, else 0. -/
def RateLimiter.init (maxWorkers : Nat) (rps : ℚ) : RateLimiter :=
  { maxWorkers := maxWorkers
    minInterval := if rps > 0 then 1 / rps else 0
    lastRequestTime := 0
    totalRequests := 0
    totalWaitTime := 0 }

/-- The spacing computation of `acquire()` at wall-clock time `now`: when
`min_interval > 0`, compute the wait from the reserved slot, reserve
`now + wait` before sleeping, bump `total_requests`, and add the wait to
`total_wait_time` after the sleep (only when positive, as in the source);
when `min_interval = 0`, the entire block is skipped. -/
def RateLimiter.acquire (st : RateLimiter) (now : ℚ) : RateLimiter × ℚ :=
  if st.minInterval > 0 then
    let elapsed := now - st.lastRequestTime
    let wait := if elapsed < st.minInterval then st.minInterval - elapsed else 0
    let st1 := { st with lastRequestTime := now + wait,
                         totalRequests := st.totalRequests + 1 }
    let st2 := if wait > 0 then { st1 with totalWaitTime := st1.totalWaitTime + wait }
               else st1
    (st2, wait)
  else (st, 0)

/-- Embedding of `get_stats()`: total requests, total wait, and the average wait (`0`
when no request was counted). -/
def RateLimiter.getStats (st : RateLimiter) : Nat × ℚ × ℚ :=
  (st.totalRequests, st.totalWaitTime,
   if st.totalRequests > 0 then st.totalWaitTime / (st.totalRequests : ℚ) else 0)

/-- Fold `acquire` over a sequence of wall-clock instants. -/
def RateLimiter.acquireAll (st : RateLimiter) : List ℚ → RateLimiter
  | [] => st
  | now :: rest => RateLimiter.acquireAll (st.acquire now).1 rest

/-! ## Orchestrator (`run_load` / `run_refresh`, src/engine/engine.py)

A worker's scrape attempt ends in one of three ways: the scrape callback
returns a result, raises the source's invalid-entry exception, or raises any
other exception.  The completion order of futures is abstracted as the given
trace order.  Results are opaque to the loop (`α`). -/

/-- How one entry's scrape attempt ended. -/
inductive Outcome (α : Type) where
  | success (r : α)
  | invalid
  | error
deriving DecidableEq, Repr

/-- The worker's return value `(result, is_error)`: a successful scrape
returns its result, the invalid-entry exception is swallowed silently, any
other exception yields a null result flagged as an error. -/
def workerResult {α : Type} : Outcome α → Option α × Bool
  | .success r => (some r, false)
  | .invalid => (Option.none, false)
  | .error => (Option.none, true)

/-- The orchestration parameters the completion handler reads. -/
structure LoadConfig where
  maxConsecutiveErrors : Nat
  batchSize : Nat
  checkpointEvery : Nat
  prevScraped : Nat
deriving DecidableEq, Repr

/-- The shared mutable state of the completion loop: the pending batch, the
counters, the batches flushed to `write_batch`, and the checkpoints saved. -/
structure LoopState (α : Type) where
  batch : List α
  completedCount : Nat
  errTotal : Nat
  errConsec : Nat
  flushed : List (List α)
  checkpoints : List (String × Nat)
deriving DecidableEq, Repr

/-- The loop state at orchestrator start. -/
def initLoopState {α : Type} : LoopState α :=
  { batch := [], completedCount := 0, errTotal := 0, errConsec := 0,
    flushed := [], checkpoints := [] }

/-- Embedding of `handle_result`: classify the outcome into the error counters (raising
`TooManyErrors` — the returned flag — after the increment when the
consecutive threshold is enabled and reached), then batch non-null results,
flush full batches, count the success somewhere, and checkpoint every
`checkpoint_every` successes.  Batch-write and checkpoint-write failures are
swallowed in the source, so the model records the successful calls. -/
def handleResult {α : Type} (cfg : LoadConfig) (st : LoopState α)
    (entryId : String) (result : Option α) (isError : Bool) :
    LoopState α × Bool :=
  let st1 :=
    if isError then
      { st with errTotal := st.errTotal + 1, errConsec := st.errConsec + 1 }
    else { st with errConsec := 0 }
  if isError && decide (0 < cfg.maxConsecutiveErrors)
      && decide (cfg.maxConsecutiveErrors ≤ st1.errConsec) then
    (st1, true)
  else
    match result with
    | Option.none => (st1, false)
    | some r =>
      let b := st1.batch ++ [r]
      let st2 :=
        if cfg.batchSize ≤ b.length then
          { st1 with batch := [], flushed := st1.flushed ++ [b] }
        else { st1 with batch := b }
      let st3 := { st2 with completedCount := st2.completedCount + 1 }
      let st4 :=
        if st3.completedCount % cfg.checkpointEvery = 0 then
          { st3 with checkpoints :=
            st3.checkpoints ++ [(entryId, st3.completedCount + cfg.prevScraped)] }
        else st3
      (st4, false)

/-- The `as_completed` loop: handle each completed future in trace order;
when `handle_result` raises `TooManyErrors`, cancel the remaining futures
and break (the returned flag records that the breaker fired). -/
def completionLoop {α : Type} (cfg : LoadConfig) :
    List (String × Outcome α) → LoopState α → LoopState α × Bool
  | [], st => (st, false)
  | (eid, oc) :: rest, st =>
    let wr := workerResult oc
    let r := handleResult cfg st eid wr.1 wr.2
    if r.2 then (r.1, true)
    else completionLoop cfg rest r.1

/-- What `run_load` does after the pool drains or breaks, and what it hands
back: the loop state after flushing the tail batch and saving the final
checkpoint (anchored at the last entry id), whether the breaker fired, and
the normal return value `completed["count"]`. -/
structure LoadResult (α : Type) where
  state : LoopState α
  broke : Bool
  returned : Nat
deriving DecidableEq, Repr

/-- Embedding of `run_load` from pool start to return (entry ids already materialized and
resume-filtered; `trace` is the completion order of the futures).  Note the
function returns normally in every case — `TooManyErrors` is caught inside
the completion loop. -/
def runLoadSteps {α : Type} (cfg : LoadConfig) (entryIds : List String)
    (trace : List (String × Outcome α)) : LoadResult α :=
  let r := completionLoop cfg trace initLoopState
  let st1 := if r.1.batch.isEmpty then r.1
    else { r.1 with flushed := r.1.flushed ++ [r.1.batch], batch := [] }
  let st2 := match entryIds.getLast? with
    | some e =>
      { st1 with checkpoints :=
        st1.checkpoints ++ [(e, st1.completedCount + cfg.prevScraped)] }
    | Option.none => st1
  ⟨st2, r.2, st2.completedCount⟩

/-- Embedding of `cmd_load` (scrape.py): calls `run_load`, prints the count, and returns
exit code 0; nothing inspects whether the circuit breaker fired. -/
def cmdLoadExitCode {α : Type} (cfg : LoadConfig) (entryIds : List String)
    (trace : List (String × Outcome α)) : Nat :=
  let _count := (runLoadSteps cfg entryIds trace).returned
  0

/-- First index satisfying `p` (the source's enumerate-and-break loop). -/
def findFirstIdx {α : Type} (p : α → Bool) : List α → Option Nat
  | [] => Option.none
  | a :: l => if p a then some 0 else (findFirstIdx p l).map (· + 1)

/-- The resume block of `run_load`: with a checkpoint `(last_entry_id,
total_scraped)` present, find the first entry whose `str()` equals the
checkpoint id and drop it and everything before it, keeping the resumed
count; otherwise process the full list with a resumed count of 0. -/
def resumeFromCheckpoint {α : Type} (pyStrId : α → String) (entryIds : List α)
    (cp : Option (String × Nat)) : List α × Nat :=
  match cp with
  | Option.none => (entryIds, 0)
  | some (lastId, total) =>
    match findFirstIdx (fun e => pyStrId e == lastId) entryIds with
    | some i => (entryIds.drop (i + 1), total)
    | Option.none => (entryIds, 0)

/-- Count the successes in a trace. -/
def countSuccess {α : Type} (trace : List (String × Outcome α)) : Nat :=
  trace.countP (fun x => match x.2 with | .success _ => true | _ => false)

/-- Count the invalid-entry skips in a trace. -/
def countInvalid {α : Type} (trace : List (String × Outcome α)) : Nat :=
  trace.countP (fun x => match x.2 with | .invalid => true | _ => false)

/-- Count the errors in a trace. -/
def countError {α : Type} (trace : List (String × Outcome α)) : Nat :=
  trace.countP (fun x => match x.2 with | .error => true | _ => false)

/-! ## Derived definitions used by the verification

Quantities the claims talk about, read off the source: the key order of
the canonical serialization, the rows surviving the hash-cache filter, the
row count of a flattened batch, and the spec's own description of the row
hasher (kept separate to compare against the implementation). -/

/-- The key order used by the canonical serialization. -/
def keyLe {α : Type} (a b : String × α) : Prop := a.1.toList ≤ b.1.toList

/-- The rows of a table that survive the hash-cache filter of `write_batch`:
augmented rows whose `row_hash` is not yet known for that table. -/
def survivors (now : PyDateTime) (m : List (String × List String))
    (tn : String) (rows : List Row) : List Row :=
  (rows.map (augmentRow now)).filter
    (fun r => !(((assocGet m tn).getD []).contains (rowHashOf r)))

/-- Total number of input rows of a flattened batch. -/
def totalRows (tables : List (String × List Row)) : Nat :=
  (tables.map (fun kv => kv.2.length)).sum

/-- The spec's step list for the row hasher (§4.1), as written: drop
excluded and null columns, stringify each remaining value canonically, emit
the JSON object with sorted keys, and MD5-hex the UTF-8 bytes.  (The source
sorts the items before filtering; the spec filters before sorting.) -/
def specRowHash (data : Row) : String :=
  md5Hex (utf8Bytes (jsonObjSorted ((data.filter
    (fun kv => !(defaultExclude.contains kv.1) && !(kv.2.isNone))).map
    (fun kv => (kv.1, kv.2.pyStr)))))

/-! ## Supporting lemmas: the completion loop -/

lemma handleResult_flag {α : Type} (cfg : LoadConfig) (st : LoopState α)
    (eid : String) (result : Option α) (isError : Bool) :
    (handleResult cfg st eid result isError).2
      = (isError && decide (0 < cfg.maxConsecutiveErrors)
          && decide (cfg.maxConsecutiveErrors ≤ st.errConsec + 1)) := by
  cases isError <;> cases result <;>
    simp only [handleResult, Bool.false_and, Bool.true_and, Bool.false_eq_true,
      if_false, Bool.and_eq_true, decide_eq_true_eq] <;>
    split_ifs <;> simp_all

lemma handleResult_not_error_counts {α : Type} (cfg : LoadConfig) (st : LoopState α)
    (eid : String) (result : Option α) :
    (handleResult cfg st eid result false).1.completedCount
        = st.completedCount + (if result.isSome then 1 else 0)
    ∧ (handleResult cfg st eid result false).1.errTotal = st.errTotal := by
  constructor <;>
    cases result <;>
      simp only [handleResult, Bool.false_and, Bool.false_eq_true, if_false,
        Option.isSome_some, Option.isSome_none, if_true] <;>
      first
        | rfl
        | omega
        | (split_ifs <;> simp_all)

lemma handleResult_error_counts {α : Type} (cfg : LoadConfig) (st : LoopState α)
    (eid : String) :
    (handleResult cfg st eid Option.none true).1.completedCount = st.completedCount
    ∧ (handleResult cfg st eid Option.none true).1.errTotal = st.errTotal + 1 := by
  constructor <;>
    · simp only [handleResult]
      split_ifs <;> rfl


lemma completionLoop_break_append {α : Type} (cfg : LoadConfig)
    (l₁ l₂ : List (String × Outcome α)) (st : LoopState α)
    (h : (completionLoop cfg l₁ st).2 = true) :
    completionLoop cfg (l₁ ++ l₂) st = completionLoop cfg l₁ st := by
  induction l₁ generalizing st with
  | nil => simp [completionLoop] at h
  | cons x rest ih =>
    simp only [List.cons_append, completionLoop] at h ⊢
    by_cases hr : (handleResult cfg st x.1 (workerResult x.2).1 (workerResult x.2).2).2
    · simp [hr]
    · simp only [Bool.not_eq_true] at hr
      simp only [hr, Bool.false_eq_true, if_false] at h ⊢
      exact ih _ h

lemma completionLoop_zero_threshold {α : Type} (cfg : LoadConfig)
    (h0 : cfg.maxConsecutiveErrors = 0) (trace : List (String × Outcome α))
    (st : LoopState α) :
    completionLoop cfg trace st
      = (trace.foldl
          (fun s x => (handleResult cfg s x.1 (workerResult x.2).1 (workerResult x.2).2).1)
          st, false) := by
  induction trace generalizing st with
  | nil => rfl
  | cons x rest ih =>
    have hflag : (handleResult cfg st x.1 (workerResult x.2).1 (workerResult x.2).2).2 = false := by
      rw [handleResult_flag, h0]
      simp
    simp only [completionLoop, List.foldl_cons, hflag, Bool.false_eq_true, if_false]
    exact ih _

lemma completionLoop_counts {α : Type} (cfg : LoadConfig)
    (trace : List (String × Outcome α)) (st : LoopState α)
    (h : (completionLoop cfg trace st).2 = false) :
    (completionLoop cfg trace st).1.completedCount
        = st.completedCount + countSuccess trace
    ∧ (completionLoop cfg trace st).1.errTotal = st.errTotal + countError trace := by
  induction trace generalizing st with
  | nil => simp [completionLoop, countSuccess, countError]
  | cons x rest ih =>
    simp only [completionLoop] at h ⊢
    by_cases hr : (handleResult cfg st x.1 (workerResult x.2).1 (workerResult x.2).2).2
    · simp [hr] at h
    · simp only [Bool.not_eq_true] at hr
      simp only [hr, Bool.false_eq_true, if_false] at h ⊢
      rcases ih _ h with ⟨ihc, ihe⟩
      rw [ihc, ihe]
      cases hoc : x.2 with
      | success r =>
        have hcnt := handleResult_not_error_counts cfg st x.1 (some r)
        simp only [hoc, workerResult] at ihc ihe ⊢
        rw [hcnt.1, hcnt.2]
        simp [countSuccess, countError, List.countP_cons, hoc]
        omega
      | invalid =>
        have hcnt := handleResult_not_error_counts cfg st x.1 Option.none
        simp only [hoc, workerResult]
        rw [hcnt.1, hcnt.2]
        simp [countSuccess, countError, List.countP_cons, hoc]
      | error =>
        have hcnt := handleResult_error_counts cfg st x.1
        simp only [hoc, workerResult]
        rw [hcnt.1, hcnt.2]
        simp [countSuccess, countError, List.countP_cons, hoc]
        omega

lemma counts_partition {α : Type} (trace : List (String × Outcome α)) :
    countSuccess trace + countInvalid trace + countError trace = trace.length := by
  induction trace with
  | nil => rfl
  | cons x rest ih =>
    cases h : x.2 <;>
      simp [countSuccess, countInvalid, countError, List.countP_cons, h] at ih ⊢ <;>
      omega


/-! ## Supporting lemmas: resume and rate limiter -/

lemma findFirstIdx_eq_some {α : Type} (p : α → Bool) (l : List α) (i : Nat)
    (hi : i < l.length) (hp : p (l.get ⟨i, hi⟩) = true)
    (hmin : ∀ (j : Nat) (hj : j < l.length), j < i → p (l.get ⟨j, hj⟩) = false) :
    findFirstIdx p l = some i := by
  induction l generalizing i with
  | nil => exact absurd hi (by simp)
  | cons a t ih =>
    cases i with
    | zero =>
      simp only [List.get] at hp
      simp [findFirstIdx, hp]
    | succ k =>
      have ha : p a = false := hmin 0 (by simp) (Nat.succ_pos k)
      simp only [findFirstIdx, ha, Bool.false_eq_true, if_false]
      have ht : findFirstIdx p t = some k := by
        refine ih k (by simpa using Nat.lt_of_succ_lt_succ hi) hp ?_
        intro j hj hjk
        exact hmin (j + 1) (by simpa using Nat.succ_lt_succ hj) (Nat.succ_lt_succ hjk)
      rw [ht]
      rfl

lemma findFirstIdx_eq_none {α : Type} (p : α → Bool) (l : List α)
    (h : ∀ e ∈ l, p e = false) : findFirstIdx p l = Option.none := by
  induction l with
  | nil => rfl
  | cons a t ih =>
    simp only [findFirstIdx, h a (by simp), Bool.false_eq_true, if_false]
    rw [ih (fun e he => h e (List.mem_cons_of_mem a he))]
    rfl

lemma acquire_zero_interval (s : RateLimiter) (t : ℚ) (h : s.minInterval = 0) :
    s.acquire t = (s, 0) := by
  simp [RateLimiter.acquire, h]

lemma init_zero_interval (mw : Nat) : (RateLimiter.init mw 0).minInterval = 0 := by
  simp [RateLimiter.init]

lemma acquireAll_zero_interval (s : RateLimiter) (h : s.minInterval = 0)
    (nows : List ℚ) : s.acquireAll nows = s := by
  induction nows with
  | nil => rfl
  | cons t rest ih =>
    simp only [RateLimiter.acquireAll, acquire_zero_interval s t h]
    exact ih

/-! ## Claim theorems (orchestrator and rate limiter) -/

/-- Claim C3: with `max_consecutive_errors > 0`, an error that brings the
consecutive counter to the threshold makes the completion handler raise
`TooManyErrors`, and once the loop breaks the remaining futures are
cancelled (entries after the break contribute nothing); with
`max_consecutive_errors = 0` the breaker is disabled and the loop folds the
handler over every entry of the trace without ever breaking. -/
theorem C3_circuit_breaker {α : Type} (cfg : LoadConfig) :
    (0 < cfg.maxConsecutiveErrors →
      (∀ (st : LoopState α) (eid : String),
          cfg.maxConsecutiveErrors ≤ st.errConsec + 1 →
          (handleResult cfg st eid Option.none true).2 = true)
      ∧ ∀ (l₁ l₂ : List (String × Outcome α)) (st : LoopState α),
          (completionLoop cfg l₁ st).2 = true →
          completionLoop cfg (l₁ ++ l₂) st = completionLoop cfg l₁ st)
    ∧ (cfg.maxConsecutiveErrors = 0 →
      ∀ (trace : List (String × Outcome α)) (st : LoopState α),
        completionLoop cfg trace st
          = (trace.foldl (fun s x =>
              (handleResult cfg s x.1 (workerResult x.2).1 (workerResult x.2).2).1)
              st, false)) := by
  refine ⟨fun hpos => ⟨fun st eid hcnt => ?_,
      fun l₁ l₂ st h => completionLoop_break_append cfg l₁ l₂ st h⟩,
    fun h0 trace st => completionLoop_zero_threshold cfg h0 trace st⟩
  rw [handleResult_flag]
  simp [hpos, hcnt]

/-- Closed instance of `C3_circuit_breaker`: threshold 2, a second
consecutive error raises; and with threshold 0 a three-error trace is
processed end to end. -/
theorem C3_circuit_breaker_witness :
    (0 < (2 : Nat)
      ∧ (handleResult (⟨2, 10, 100, 0⟩ : LoadConfig)
          ({ initLoopState with errConsec := 1 } : LoopState Nat) "7"
          Option.none true).2 = true)
    ∧ ((0 : Nat) = 0
      ∧ completionLoop (⟨0, 10, 100, 0⟩ : LoadConfig)
          [("1", (Outcome.error : Outcome Nat)), ("2", Outcome.error), ("3", Outcome.error)]
          initLoopState
        = ([("1", (Outcome.error : Outcome Nat)), ("2", Outcome.error), ("3", Outcome.error)].foldl
            (fun s x => (handleResult ⟨0, 10, 100, 0⟩ s x.1 (workerResult x.2).1 (workerResult x.2).2).1)
            initLoopState, false)) :=
  ⟨⟨by decide,
    ((@C3_circuit_breaker Nat ⟨2, 10, 100, 0⟩).1 (by decide)).1 _ ("7") (by decide)⟩,
   ⟨rfl, (@C3_circuit_breaker Nat ⟨0, 10, 100, 0⟩).2 rfl _ initLoopState⟩⟩


lemma runLoadSteps_returned_broke {α : Type} (cfg : LoadConfig)
    (ids : List String) (trace : List (String × Outcome α)) :
    (runLoadSteps cfg ids trace).returned
        = (completionLoop cfg trace initLoopState).1.completedCount
    ∧ (runLoadSteps cfg ids trace).broke = (completionLoop cfg trace initLoopState).2 := by
  constructor
  · simp only [runLoadSteps]
    split <;> split <;> rfl
  · rfl

/-- Claim C6 (conservation): when the breaker never fires, the count
`run_load` returns is the number of successes, is at most the number of
entries, and together with the invalid skips and the counted errors adds up
exactly to the number of entries. -/
theorem C6_classification_conservation {α : Type} (cfg : LoadConfig)
    (entryIds : List String) (trace : List (String × Outcome α))
    (hlen : trace.length = entryIds.length)
    (hnb : (runLoadSteps cfg entryIds trace).broke = false) :
    (runLoadSteps cfg entryIds trace).returned ≤ entryIds.length
    ∧ (runLoadSteps cfg entryIds trace).returned + countInvalid trace + countError trace
        = entryIds.length := by
  have hfacts := runLoadSteps_returned_broke cfg entryIds trace
  rw [hfacts.2] at hnb
  have hcnt := (completionLoop_counts cfg trace initLoopState hnb).1
  have hpart := counts_partition trace
  rw [hfacts.1, hcnt]
  simp only [initLoopState, Nat.zero_add]
  constructor
  · have : countSuccess trace ≤ trace.length := List.countP_le_length _
    omega
  · omega

/-- Closed instance of `C6_classification_conservation`: one success, one
invalid skip, one error over three entries. -/
theorem C6_classification_conservation_witness :
    (([("1", Outcome.success 5), ("2", Outcome.invalid), ("3", (Outcome.error : Outcome Nat))].length
        = ["1", "2", "3"].length)
      ∧ (runLoadSteps (⟨0, 10, 100, 0⟩ : LoadConfig) ["1", "2", "3"]
          [("1", Outcome.success 5), ("2", Outcome.invalid), ("3", Outcome.error)]).broke = false)
    ∧ ((runLoadSteps (⟨0, 10, 100, 0⟩ : LoadConfig) ["1", "2", "3"]
          [("1", Outcome.success 5), ("2", Outcome.invalid), ("3", Outcome.error)]).returned
        ≤ ["1", "2", "3"].length
      ∧ (runLoadSteps (⟨0, 10, 100, 0⟩ : LoadConfig) ["1", "2", "3"]
          [("1", Outcome.success 5), ("2", Outcome.invalid), ("3", Outcome.error)]).returned
        + countInvalid [("1", Outcome.success 5), ("2", Outcome.invalid), ("3", Outcome.error)]
        + countError [("1", Outcome.success 5), ("2", Outcome.invalid), ("3", Outcome.error)]
        = ["1", "2", "3"].length) :=
  ⟨⟨by decide, by decide⟩,
   C6_classification_conservation ⟨0, 10, 100, 0⟩ ["1", "2", "3"] _ (by decide) (by decide)⟩

/-- Counterexample to claim C4 as stated: with threshold 2 and three failing
entries the breaker fires, yet `run_load` returns normally (count 0), the
final checkpoint is still saved, and the CLI command returns exit code 0 —
`TooManyErrors` does not cross the orchestrator boundary. -/
theorem C4_counterexample :
    (runLoadSteps (⟨2, 10, 100, 0⟩ : LoadConfig) ["1", "2", "3"]
        [("1", (Outcome.error : Outcome Nat)), ("2", Outcome.error), ("3", Outcome.error)]).broke
      = true
    ∧ (runLoadSteps (⟨2, 10, 100, 0⟩ : LoadConfig) ["1", "2", "3"]
        [("1", (Outcome.error : Outcome Nat)), ("2", Outcome.error), ("3", Outcome.error)]).returned
      = 0
    ∧ (runLoadSteps (⟨2, 10, 100, 0⟩ : LoadConfig) ["1", "2", "3"]
        [("1", (Outcome.error : Outcome Nat)), ("2", Outcome.error), ("3", Outcome.error)]).state.checkpoints
      = [("3", 0)]
    ∧ cmdLoadExitCode (⟨2, 10, 100, 0⟩ : LoadConfig) ["1", "2", "3"]
        [("1", (Outcome.error : Outcome Nat)), ("2", Outcome.error), ("3", Outcome.error)]
      = 0 := by
  decide

/-- Claim C4 (amended): when the breaker fires, `run_load` flushes the tail
batch, saves the final checkpoint anchored at the last entry id, and then
returns the success count normally — `TooManyErrors` is contained inside the
completion loop, so the CLI exit code is 0 rather than non-zero. -/
theorem C4_amended_contained {α : Type} (cfg : LoadConfig) (ids : List String)
    (trace : List (String × Outcome α))
    (hb : (runLoadSteps cfg ids trace).broke = true) (hne : ids ≠ []) :
    (runLoadSteps cfg ids trace).returned
        = (runLoadSteps cfg ids trace).state.completedCount
    ∧ (runLoadSteps cfg ids trace).state.batch = []
    ∧ (runLoadSteps cfg ids trace).state.checkpoints.getLast?
        = some (ids.getLast hne,
            (runLoadSteps cfg ids trace).state.completedCount + cfg.prevScraped)
    ∧ cmdLoadExitCode cfg ids trace = 0 := by
  refine ⟨rfl, ?_, ?_, rfl⟩
  · simp only [runLoadSteps]
    split <;> split_ifs with h <;>
      simp_all [List.isEmpty_iff]
  · have hlast : ids.getLast? = some (ids.getLast hne) := List.getLast?_eq_getLast ids hne
    simp only [runLoadSteps, hlast]
    split_ifs <;> simp [List.getLast?_concat]

/-- Closed instance of `C4_amended_contained` at the counterexample input. -/
theorem C4_amended_contained_witness :
    ((runLoadSteps (⟨2, 10, 100, 0⟩ : LoadConfig) ["1", "2", "3"]
        [("1", (Outcome.error : Outcome Nat)), ("2", Outcome.error), ("3", Outcome.error)]).broke
      = true ∧ (["1", "2", "3"] : List String) ≠ [])
    ∧ (runLoadSteps (⟨2, 10, 100, 0⟩ : LoadConfig) ["1", "2", "3"]
        [("1", (Outcome.error : Outcome Nat)), ("2", Outcome.error), ("3", Outcome.error)]).state.batch
      = []
    ∧ cmdLoadExitCode (⟨2, 10, 100, 0⟩ : LoadConfig) ["1", "2", "3"]
        [("1", (Outcome.error : Outcome Nat)), ("2", Outcome.error), ("3", Outcome.error)] = 0 :=
  ⟨⟨by decide, by decide⟩,
   (C4_amended_contained ⟨2, 10, 100, 0⟩ ["1", "2", "3"] _ (by decide) (by decide)).2.1,
   (C4_amended_contained ⟨2, 10, 100, 0⟩ ["1", "2", "3"]
      [("1", (Outcome.error : Outcome Nat)), ("2", Outcome.error), ("3", Outcome.error)]
      (by decide) (by decide)).2.2.2⟩


/-- Claim C5: resuming with a checkpoint whose `last_entry_id` matches the
stringified id at the first matching index `i` drops exactly the ids at
indices `0..i` and keeps the checkpoint count; with no matching index the
full list is kept and the resumed count is reset to 0. -/
theorem C5_resume_from_checkpoint {α : Type} (f : α → String) (ids : List α)
    (lastId : String) (total : Nat) :
    (∀ (i : Nat) (hi : i < ids.length),
        f (ids.get ⟨i, hi⟩) = lastId →
        (∀ (j : Nat) (hj : j < ids.length), j < i → f (ids.get ⟨j, hj⟩) ≠ lastId) →
        resumeFromCheckpoint f ids (some (lastId, total)) = (ids.drop (i + 1), total))
    ∧ ((∀ e ∈ ids, f e ≠ lastId) →
        resumeFromCheckpoint f ids (some (lastId, total)) = (ids, 0)) := by
  constructor
  · intro i hi hp hmin
    have hfind : findFirstIdx (fun e => f e == lastId) ids = some i := by
      refine findFirstIdx_eq_some _ ids i hi (by simpa using hp) ?_
      intro j hj hji
      simpa using hmin j hj hji
    simp [resumeFromCheckpoint, hfind]
  · intro hnone
    have hfind : findFirstIdx (fun e => f e == lastId) ids = Option.none := by
      refine findFirstIdx_eq_none _ ids ?_
      intro e he
      simpa using hnone e he
    simp [resumeFromCheckpoint, hfind]

/-- Closed instance of `C5_resume_from_checkpoint`: ids `[7, 8, 9]`, a
checkpoint at `"8"` resumes with `[9]` and the checkpoint count, while a
checkpoint at `"5"` restarts from the beginning with count 0. -/
theorem C5_resume_from_checkpoint_witness :
    resumeFromCheckpoint (fun n : Nat => toString n) [7, 8, 9] (some ("8", 42)) = ([9], 42)
    ∧ resumeFromCheckpoint (fun n : Nat => toString n) [7, 8, 9] (some ("5", 42)) = ([7, 8, 9], 0) :=
  ⟨(C5_resume_from_checkpoint (fun n : Nat => toString n) [7, 8, 9] "8" 42).1 1
      (by decide) (by decide) (by decide),
   (C5_resume_from_checkpoint (fun n : Nat => toString n) [7, 8, 9] "5" 42).2 (by decide)⟩

/-- Claim C7: with `requests_per_second > 0`, `min_interval = 1/rps` and each
`acquire` computes `wait = max(0, min_interval - (now - last_slot))` and
reserves `last_slot = now + wait` before sleeping; with
`requests_per_second = 0` the spacing state is inert (`acquire` changes
nothing and waits 0) and only the semaphore capacity `max_workers` remains. -/
theorem C7_rate_limiter_acquire (mw : Nat) (rps : ℚ) (st : RateLimiter) (now : ℚ) :
    (0 < rps → (RateLimiter.init mw rps).minInterval = 1 / rps)
    ∧ (0 < st.minInterval →
        (st.acquire now).2 = max 0 (st.minInterval - (now - st.lastRequestTime))
        ∧ (st.acquire now).1.lastRequestTime = now + (st.acquire now).2)
    ∧ (rps = 0 →
        (RateLimiter.init mw rps).minInterval = 0
        ∧ (RateLimiter.init mw rps).maxWorkers = mw
        ∧ ∀ (s : RateLimiter) (t : ℚ), s.minInterval = 0 → s.acquire t = (s, 0)) := by
  refine ⟨fun hrps => by simp [RateLimiter.init, hrps], fun hmin => ?_, fun hz => ?_⟩
  · simp only [RateLimiter.acquire, if_pos hmin]
    constructor
    · split_ifs <;>
      · rcases le_or_lt (st.minInterval - (now - st.lastRequestTime)) 0 with hc | hc <;>
          first
            | rw [max_eq_left hc] <;> linarith
            | rw [max_eq_right (le_of_lt hc)] <;> linarith
    · split_ifs <;> rfl
  · subst hz
    exact ⟨by simp [RateLimiter.init], by simp [RateLimiter.init],
      fun s t h => acquire_zero_interval s t h⟩

/-- Closed instance of `C7_rate_limiter_acquire`: a limiter at 5 rps has
interval 1/5; acquiring at time 3 from a fresh limiter waits
`max 0 (1/5 - 3) = 0` and reserves slot 3. -/
theorem C7_rate_limiter_acquire_witness :
    (0 < (5 : ℚ) ∧ (RateLimiter.init 10 5).minInterval = 1 / 5)
    ∧ (0 < (RateLimiter.init 10 5).minInterval
      ∧ ((RateLimiter.init 10 5).acquire 3).2
          = max 0 ((RateLimiter.init 10 5).minInterval - (3 - (RateLimiter.init 10 5).lastRequestTime))
      ∧ ((RateLimiter.init 10 5).acquire 3).1.lastRequestTime
          = 3 + ((RateLimiter.init 10 5).acquire 3).2)
    ∧ ((0 : ℚ) = 0 ∧ (RateLimiter.init 10 0).minInterval = 0) := by
  have hpos : (0 : ℚ) < 5 := by norm_num
  have hmin : 0 < (RateLimiter.init 10 5).minInterval := by
    norm_num [RateLimiter.init]
  exact ⟨⟨hpos, (C7_rate_limiter_acquire 10 5 (RateLimiter.init 10 5) 3).1 hpos⟩,
    ⟨hmin, ((C7_rate_limiter_acquire 10 5 (RateLimiter.init 10 5) 3).2.1 hmin).1,
      ((C7_rate_limiter_acquire 10 5 (RateLimiter.init 10 5) 3).2.1 hmin).2⟩,
    ⟨rfl, ((C7_rate_limiter_acquire 10 0 (RateLimiter.init 10 0) 3).2.2 rfl).1⟩⟩

/-- Claim C10 (implicit): with `requests_per_second = 0` the spacing block of
`acquire` is skipped entirely, so after any sequence of acquisitions the
limiter state — and in particular `total_requests`, `total_wait_time` and
the average reported by `get_stats` — is unchanged at zero; the request
counter only moves when spacing is enabled. -/
theorem C10_zero_rps_stats (mw : Nat) (nows : List ℚ) (st : RateLimiter) (now : ℚ) :
    (RateLimiter.init mw 0).acquireAll nows = RateLimiter.init mw 0
    ∧ ((RateLimiter.init mw 0).acquireAll nows).getStats = (0, 0, 0)
    ∧ (0 < st.minInterval →
        (st.acquire now).1.totalRequests = st.totalRequests + 1) := by
  have hall := acquireAll_zero_interval (RateLimiter.init mw 0) (init_zero_interval mw) nows
  refine ⟨hall, ?_, fun hmin => ?_⟩
  · rw [hall]
    simp [RateLimiter.getStats, RateLimiter.init]
  · simp only [RateLimiter.acquire, if_pos hmin]
    split_ifs <;> rfl

/-- Closed instance of `C10_zero_rps_stats`: three acquisitions at rps 0
leave the stats at zero, while a spaced limiter counts its first request. -/
theorem C10_zero_rps_stats_witness :
    ((RateLimiter.init 4 0).acquireAll [1, 2, 3]).getStats = (0, 0, 0)
    ∧ (0 < (RateLimiter.init 4 2).minInterval
      ∧ ((RateLimiter.init 4 2).acquire 1).1.totalRequests
          = (RateLimiter.init 4 2).totalRequests + 1) :=
  have hmin : 0 < (RateLimiter.init 4 2).minInterval := by norm_num [RateLimiter.init]
  ⟨(C10_zero_rps_stats 4 [1, 2, 3] (RateLimiter.init 4 2) 1).2.1,
   hmin, (C10_zero_rps_stats 4 [1, 2, 3] (RateLimiter.init 4 2) 1).2.2 hmin⟩


/-! ## Supporting lemmas: compaction -/

lemma toList_append (a b : String) : (a ++ b).toList = a.toList ++ b.toList :=
  String.data_append a b

/-- A file of a different session (same fixed-width timestamp format) never
matches this session's glob. -/
lemma matchesSession_ne (ts ts' sfx : String) (hlen : ts'.length = ts.length)
    (hne : ts' ≠ ts) : matchesSession ts (ts' ++ "_" ++ sfx) = false := by
  have hpre : ¬ ((ts ++ "_").toList <+: (ts' ++ "_" ++ sfx).toList) := by
    intro hp
    obtain ⟨t, ht⟩ := hp
    rw [toList_append, toList_append, toList_append] at ht
    rw [List.append_assoc, List.append_assoc] at ht
    have hlen' : ts.toList.length = ts'.toList.length := by
      have h1 : ts.toList.length = ts.length := (String.length_data ts)
      have h2 : ts'.toList.length = ts'.length := (String.length_data ts')
      omega
    have := (List.append_inj ht hlen').1
    exact hne (String.toList_inj.mp this.symm)
  unfold matchesSession
  rw [Bool.and_eq_false_iff]
  left
  rw [← Bool.not_eq_true, List.isPrefixOf_iff_prefix]
  exact hpre

/-- The merged file `<session_ts>.parquet` does not itself match the
session glob (its separator is `.` rather than `_`). -/
lemma matchesSession_merged (ts : String) :
    matchesSession ts (ts ++ ".parquet") = false := by
  have hpre : ¬ ((ts ++ "_").toList <+: (ts ++ ".parquet").toList) := by
    intro hp
    obtain ⟨t, ht⟩ := hp
    rw [toList_append, toList_append, List.append_assoc] at ht
    have := (List.append_inj ht rfl).2
    simp at this
  unfold matchesSession
  rw [Bool.and_eq_false_iff]
  left
  rw [← Bool.not_eq_true, List.isPrefixOf_iff_prefix]
  exact hpre

/-- Claim C8: compaction treats each table directory independently and, in
each, considers only files matching this session's `<ts>_*.parquet` glob:
files of any other fixed-width session timestamp never match (and every
non-matching file survives untouched); with at most one session file the
directory is left exactly as it was; with two or more, the directory
becomes the non-session files plus the single merged `<ts>.parquet`, and
every session constituent is gone. -/
theorem C8_compact_session_scope (ts : String) (files : List String)
    (dirs : List (String × List String)) :
    (∀ d ∈ dirs, (d.1, compactTable ts d.2) ∈ compact ts dirs)
    ∧ (∀ (ts' sfx : String), ts'.length = ts.length → ts' ≠ ts →
        matchesSession ts (ts' ++ "_" ++ sfx) = false)
    ∧ (∀ f ∈ files, matchesSession ts f = false → f ∈ compactTable ts files)
    ∧ ((files.filter (matchesSession ts)).length ≤ 1 → compactTable ts files = files)
    ∧ (2 ≤ (files.filter (matchesSession ts)).length →
        compactTable ts files
          = files.filter (fun f => !(matchesSession ts f)) ++ [ts ++ ".parquet"]
        ∧ ∀ f ∈ compactTable ts files,
            matchesSession ts f = false ∨ f = ts ++ ".parquet") := by
  refine ⟨fun d hd => List.mem_map_of_mem _ hd,
    fun ts' sfx hlen hne => matchesSession_ne ts ts' sfx hlen hne,
    fun f hf hnm => ?_, fun hle => ?_, fun hge => ?_⟩
  · simp only [compactTable]
    split_ifs with h
    · exact hf
    · exact List.mem_append_left _ (List.mem_filter.mpr ⟨hf, by simp [hnm]⟩)
  · simp only [compactTable]
    rw [if_pos hle]
  · have hgt : ¬ (files.filter (matchesSession ts)).length ≤ 1 := by omega
    constructor
    · simp only [compactTable]
      rw [if_neg hgt]
    · intro f hfm
      simp only [compactTable] at hfm
      rw [if_neg hgt] at hfm
      rcases List.mem_append.mp hfm with hin | hin
      · left
        have := (List.mem_filter.mp hin).2
        simpa using this
      · right
        simpa using hin

/-- Closed instance of `C8_compact_session_scope`: two files of session `S`
merge into `S.parquet`; the other-session file `T_0001.parquet` and the
stray `notes.txt` survive; a singleton directory is untouched. -/
theorem C8_compact_session_scope_witness :
    ("T".length = "S".length ∧ "T" ≠ "S"
      ∧ matchesSession ("S") ("T" ++ "_" ++ "0001.parquet") = false)
    ∧ (2 ≤ (["S_0001.parquet", "S_0002.parquet", "T_0001.parquet", "notes.txt"].filter
          (matchesSession ("S"))).length
      ∧ compactTable ("S") ["S_0001.parquet", "S_0002.parquet", "T_0001.parquet", "notes.txt"]
          = ["T_0001.parquet", "notes.txt", "S.parquet"])
    ∧ ((["S_0001.parquet"].filter (matchesSession ("S"))).length ≤ 1
      ∧ compactTable ("S") ["S_0001.parquet"] = ["S_0001.parquet"]) :=
  ⟨⟨rfl, by decide,
    (C8_compact_session_scope ("S") [] []).2.1 ("T") ("0001.parquet") rfl (by decide)⟩,
   ⟨by decide, by
      have h := (C8_compact_session_scope ("S")
        ["S_0001.parquet", "S_0002.parquet", "T_0001.parquet", "notes.txt"] []).2.2.2.2
        (by decide)
      rw [h.1]
      decide⟩,
   ⟨by decide, (C8_compact_session_scope ("S") ["S_0001.parquet"] []).2.2.2.1 (by decide)⟩⟩


/-! ## Supporting lemmas: the hash-cache write path -/

lemma assocGet_assocSet_self {α : Type} (m : List (String × α)) (k : String) (v : α) :
    assocGet (assocSet m k v) k = some v := by
  induction m with
  | nil => simp [assocSet, assocGet]
  | cons p rest ih =>
    by_cases h : p.1 = k
    · simp [assocSet, assocGet, h]
    · simp only [assocSet, assocGet, h, if_false]
      exact ih

lemma assocGet_assocSet_ne {α : Type} (m : List (String × α)) (k k' : String)
    (v : α) (h : k' ≠ k) : assocGet (assocSet m k v) k' = assocGet m k' := by
  induction m with
  | nil =>
    simp only [assocSet, assocGet]
    rw [if_neg (fun hh => h hh.symm)]
  | cons p rest ih =>
    simp only [assocSet]
    split_ifs with hp
    · simp only [assocGet]
      rw [if_neg (fun hh => h hh.symm), if_neg (fun hh => h (hh.symm.trans hp))]
    · simp only [assocGet]
      split_ifs with hp2
      · rfl
      · exact ih

/-- Full effect of the per-table write when the hash cache is active. -/
lemma writeTable_cached_effects (now : PyDateTime) (bn : Nat) (st : WriterState)
    (m : List (String × List String)) (tn : String) (rows : List Row)
    (hc : st.cache = some m) :
    (writeTable now bn st tn rows).rowsWritten
        = st.rowsWritten + (survivors now m tn rows).length
    ∧ (writeTable now bn st tn rows).rowsSkipped
        = st.rowsSkipped + (rows.length - (survivors now m tn rows).length)
    ∧ (survivors now m tn rows = [] → (writeTable now bn st tn rows).files = st.files)
    ∧ (survivors now m tn rows ≠ [] →
        (writeTable now bn st tn rows).files
          = st.files ++ [⟨tn, batchFileName st.sessionTs bn, survivors now m tn rows⟩])
    ∧ (rows = [] → (writeTable now bn st tn rows).cache = some m)
    ∧ (rows ≠ [] → (writeTable now bn st tn rows).cache
        = some (assocSet m tn ((assocGet m tn).getD []
            ++ (survivors now m tn rows).map rowHashOf))) := by
  by_cases hre : rows = []
  · subst hre
    refine ⟨by simp [writeTable, survivors], by simp [writeTable, survivors],
      fun _ => by simp [writeTable], fun hcon => absurd rfl hcon,
      fun _ => hc, fun hcon => absurd rfl hcon⟩
  · have hre' : rows.isEmpty = false := by simpa using hre
    have hs : ((rows.map (augmentRow now)).filter
        (fun r => !(((assocGet m tn).getD []).contains (rowHashOf r))))
        = survivors now m tn rows := rfl
    simp only [writeTable, hre', Bool.false_eq_true, if_false, hc, hs]
    by_cases hnew : survivors now m tn rows = []
    · simp only [hnew, List.isEmpty_nil, if_true, List.length_nil, List.map_nil,
        List.append_nil, Nat.add_zero, List.length_map]
      refine ⟨?_, ?_, ?_, ?_, ?_, ?_⟩ <;> simp_all
    · have hnew' : (survivors now m tn rows).isEmpty = false := by simpa using hnew
      simp only [hnew', Bool.false_eq_true, if_false, List.length_map]
      refine ⟨?_, ?_, ?_, ?_, ?_, ?_⟩ <;> simp_all


lemma survivors_length_le (now : PyDateTime) (m : List (String × List String))
    (tn : String) (rows : List Row) :
    (survivors now m tn rows).length ≤ rows.length := by
  have h := List.length_filter_le
    (fun r => !(((assocGet m tn).getD []).contains (rowHashOf r)))
    (rows.map (augmentRow now))
  simpa [survivors] using h

lemma writeTable_cache_isSome (now : PyDateTime) (bn : Nat) (st : WriterState)
    (m : List (String × List String)) (tn : String) (rows : List Row)
    (hc : st.cache = some m) :
    (writeTable now bn st tn rows).cache.isSome := by
  have he := writeTable_cached_effects now bn st m tn rows hc
  by_cases hre : rows = []
  · rw [he.2.2.2.2.1 hre]
    rfl
  · rw [he.2.2.2.2.2 hre]
    rfl

/-- Conservation across a whole flattened batch: with the cache active,
every input row lands in exactly one of the two counters. -/
lemma writeTables_conservation (now : PyDateTime) (bn : Nat) :
    ∀ (tables : List (String × List Row)) (st : WriterState),
    st.cache.isSome →
    (tables.foldl (fun s kv => writeTable now bn s kv.1 kv.2) st).rowsWritten
      + (tables.foldl (fun s kv => writeTable now bn s kv.1 kv.2) st).rowsSkipped
      = st.rowsWritten + st.rowsSkipped + totalRows tables := by
  intro tables
  induction tables with
  | nil => intro st h; simp [totalRows]
  | cons p rest ih =>
    intro st h
    obtain ⟨m, hm⟩ := Option.isSome_iff_exists.mp h
    have he := writeTable_cached_effects now bn st m p.1 p.2 hm
    have hsome := writeTable_cache_isSome now bn st m p.1 p.2 hm
    have hsl := survivors_length_le now m p.1 p.2
    have ihc := ih (writeTable now bn st p.1 p.2) hsome
    simp only [List.foldl_cons] at ihc ⊢
    rw [ihc, he.1, he.2.1]
    simp only [totalRows, List.map_cons, List.sum_cons]
    omega

/-- A batch in which every (augmented) row's hash is already cached for its
table writes nothing: the counters move entirely to `rows_skipped` and no
file is created. -/
lemma writeTables_all_cached (now : PyDateTime) (bn : Nat)
    (m₀ : List (String × List String)) :
    ∀ (tables : List (String × List Row)) (st : WriterState)
      (m : List (String × List String)), st.cache = some m →
    (∀ t, (assocGet m t).getD [] = (assocGet m₀ t).getD []) →
    (∀ p ∈ tables, ∀ r ∈ p.2,
        ((assocGet m₀ p.1).getD []).contains (rowHashOf (augmentRow now r)) = true) →
    (tables.foldl (fun s kv => writeTable now bn s kv.1 kv.2) st).rowsWritten
        = st.rowsWritten
    ∧ (tables.foldl (fun s kv => writeTable now bn s kv.1 kv.2) st).rowsSkipped
        = st.rowsSkipped + totalRows tables
    ∧ (tables.foldl (fun s kv => writeTable now bn s kv.1 kv.2) st).files = st.files := by
  intro tables
  induction tables with
  | nil =>
    intro st m hm hpt hall
    simp [totalRows]
  | cons p rest ih =>
    intro st m hm hpt hall
    have he := writeTable_cached_effects now bn st m p.1 p.2 hm
    have hsur : survivors now m p.1 p.2 = [] := by
      refine List.filter_eq_nil_iff.mpr ?_
      intro r hr
      obtain ⟨r0, hr0, hrr⟩ := List.mem_map.mp hr
      subst hrr
      have := hall p (by simp) r0 hr0
      rw [← hpt p.1] at this
      simpa using this
    have hfiles := he.2.2.1 hsur
    -- the updated cache is pointwise equal to the original
    rcases Classical.em (p.2 = []) with hre | hre
    · have hcache := he.2.2.2.2.1 hre
      have ihr := ih (writeTable now bn st p.1 p.2) m hcache hpt
        (fun q hq => hall q (by simp [hq]))
      simp only [List.foldl_cons] at ihr ⊢
      refine ⟨?_, ?_, ?_⟩
      · rw [ihr.1, he.1, hsur]
        rfl
      · rw [ihr.2.1, he.2.1, hsur]
        simp only [totalRows, List.map_cons, List.sum_cons, List.length_nil]
        omega
      · rw [ihr.2.2, hfiles]
    · have hcache := he.2.2.2.2.2 hre
      rw [hsur] at hcache
      simp only [List.map_nil, List.append_nil] at hcache
      have hpt' : ∀ t, (assocGet (assocSet m p.1 ((assocGet m p.1).getD [])) t).getD []
          = (assocGet m₀ t).getD [] := by
        intro t
        by_cases ht : t = p.1
        · subst ht
          rw [assocGet_assocSet_self]
          simpa using hpt p.1
        · rw [assocGet_assocSet_ne _ _ _ _ ht]
          exact hpt t
      have ihr := ih (writeTable now bn st p.1 p.2) _ hcache hpt'
        (fun q hq => hall q (by simp [hq]))
      simp only [List.foldl_cons] at ihr ⊢
      refine ⟨?_, ?_, ?_⟩
      · rw [ihr.1, he.1, hsur]
        rfl
      · rw [ihr.2.1, he.2.1, hsur]
        simp only [totalRows, List.map_cons, List.sum_cons, List.length_nil]
        omega
      · rw [ihr.2.2, hfiles]


/-- Claim C1: with the hash cache active (`preload_hashes` ran),
`write_batch` (a) accounts every input row as either written or skipped,
(b) per table drops exactly the rows whose `row_hash` is already cached,
writes the survivors to one batch file and appends their hashes to the
cache for that table, and (c) for a batch whose every row hash is already
cached, leaves `rows_written` and the file list unchanged while
`rows_skipped` grows by the batch's row count. -/
theorem C1_write_batch_hash_cache (now : PyDateTime) (st : WriterState)
    (m : List (String × List String)) (tables : List (String × List Row))
    (tn : String) (rows : List Row) (hc : st.cache = some m) :
    ((writeBatch now st tables).rowsWritten + (writeBatch now st tables).rowsSkipped
        = st.rowsWritten + st.rowsSkipped + totalRows tables)
    ∧ (rows ≠ [] →
        (writeBatch now st [(tn, rows)]).rowsWritten
            = st.rowsWritten + (survivors now m tn rows).length
        ∧ (writeBatch now st [(tn, rows)]).rowsSkipped
            = st.rowsSkipped + (rows.length - (survivors now m tn rows).length)
        ∧ (writeBatch now st [(tn, rows)]).cache
            = some (assocSet m tn ((assocGet m tn).getD []
                ++ (survivors now m tn rows).map rowHashOf))
        ∧ (survivors now m tn rows ≠ [] →
            (writeBatch now st [(tn, rows)]).files
              = st.files ++ [⟨tn, batchFileName st.sessionTs st.batchNum,
                  survivors now m tn rows⟩]))
    ∧ ((∀ p ∈ tables, ∀ r ∈ p.2,
          ((assocGet m p.1).getD []).contains (rowHashOf (augmentRow now r)) = true) →
        (writeBatch now st tables).rowsWritten = st.rowsWritten
        ∧ (writeBatch now st tables).rowsSkipped = st.rowsSkipped + totalRows tables
        ∧ (writeBatch now st tables).files = st.files) := by
  have hc1 : ({ st with batchNum := st.batchNum + 1 } : WriterState).cache = some m := hc
  refine ⟨?_, fun hrne => ?_, fun hall => ?_⟩
  · have h := writeTables_conservation now st.batchNum tables
      { st with batchNum := st.batchNum + 1 } (by rw [hc1]; rfl)
    simpa [writeBatch] using h
  · have he := writeTable_cached_effects now st.batchNum
      { st with batchNum := st.batchNum + 1 } m tn rows hc1
    have hcache := he.2.2.2.2.2 hrne
    refine ⟨by simpa [writeBatch] using he.1, by simpa [writeBatch] using he.2.1,
      by simpa [writeBatch] using hcache, fun hsne => by simpa [writeBatch] using he.2.2.2.1 hsne⟩
  · have h := writeTables_all_cached now st.batchNum m tables
      { st with batchNum := st.batchNum + 1 } m hc1 (fun t => rfl) hall
    exact ⟨by simpa [writeBatch] using h.1, by simpa [writeBatch] using h.2.1,
      by simpa [writeBatch] using h.2.2⟩

set_option maxRecDepth 400000 in
/-- Closed instance of `C1_write_batch_hash_cache`: a one-row batch whose
hash is already cached is fully skipped and writes no file. -/
theorem C1_write_batch_hash_cache_witness :
    ((⟨"S", some [("t", ["0d6ee00f400fb5700d7cc24ac790cace"])], 0, 0, 0, []⟩ : WriterState).cache
        = some [("t", ["0d6ee00f400fb5700d7cc24ac790cace"])])
    ∧ (∀ p ∈ [("t", [[("pid", Value.int 7)]])], ∀ r ∈ p.2,
        ((assocGet [("t", ["0d6ee00f400fb5700d7cc24ac790cace"])] p.1).getD []).contains
          (rowHashOf (augmentRow ⟨2024, 1, 2, 3, 4, 5, 0⟩ r)) = true)
    ∧ ((writeBatch ⟨2024, 1, 2, 3, 4, 5, 0⟩
          ⟨"S", some [("t", ["0d6ee00f400fb5700d7cc24ac790cace"])], 0, 0, 0, []⟩
          [("t", [[("pid", Value.int 7)]])]).rowsWritten = 0
      ∧ (writeBatch ⟨2024, 1, 2, 3, 4, 5, 0⟩
          ⟨"S", some [("t", ["0d6ee00f400fb5700d7cc24ac790cace"])], 0, 0, 0, []⟩
          [("t", [[("pid", Value.int 7)]])]).rowsSkipped
          = 0 + totalRows [("t", [[("pid", Value.int 7)]])]
      ∧ (writeBatch ⟨2024, 1, 2, 3, 4, 5, 0⟩
          ⟨"S", some [("t", ["0d6ee00f400fb5700d7cc24ac790cace"])], 0, 0, 0, []⟩
          [("t", [[("pid", Value.int 7)]])]).files = []) :=
  ⟨rfl, by decide,
   (C1_write_batch_hash_cache ⟨2024, 1, 2, 3, 4, 5, 0⟩
      ⟨"S", some [("t", ["0d6ee00f400fb5700d7cc24ac790cace"])], 0, 0, 0, []⟩
      [("t", ["0d6ee00f400fb5700d7cc24ac790cace"])]
      [("t", [[("pid", Value.int 7)]])] "t" [] rfl).2.2 (by decide)⟩


/-! ## Supporting lemmas: canonical sorting and the row hash -/

lemma insertByKey_perm {α : Type} (p : String × α) (l : List (String × α)) :
    (insertByKey p l).Perm (p :: l) := by
  induction l with
  | nil => simp [insertByKey]
  | cons q rest ih =>
    simp only [insertByKey]
    split_ifs
    · exact List.Perm.refl _
    · exact (List.Perm.cons q ih).trans (List.Perm.swap p q rest)

lemma sortByKey_perm {α : Type} (l : List (String × α)) :
    (sortByKey l).Perm l := by
  induction l with
  | nil => exact List.Perm.refl _
  | cons p rest ih =>
    exact (insertByKey_perm p (sortByKey rest)).trans (List.Perm.cons p ih)

lemma insertByKey_sorted {α : Type} (p : String × α) (l : List (String × α))
    (h : l.Pairwise keyLe) : (insertByKey p l).Pairwise keyLe := by
  induction l with
  | nil => simp [insertByKey, List.pairwise_cons]
  | cons q rest ih =>
    rcases List.pairwise_cons.mp h with ⟨hq, hrest⟩
    simp only [insertByKey]
    split_ifs with hle
    · refine List.pairwise_cons.mpr ⟨?_, h⟩
      intro x hx
      rcases List.mem_cons.mp hx with hx1 | hx1
      · rw [hx1]
        exact hle
      · exact le_trans hle (hq x hx1)
    · refine List.pairwise_cons.mpr ⟨?_, ih hrest⟩
      intro x hx
      have hx' := (insertByKey_perm p rest).mem_iff.mp hx
      rcases List.mem_cons.mp hx' with hx1 | hx1
      · rw [hx1]
        exact (le_total p.1.toList q.1.toList).resolve_left hle
      · exact hq x hx1

lemma sortByKey_sorted {α : Type} (l : List (String × α)) :
    (sortByKey l).Pairwise keyLe := by
  induction l with
  | nil => simp [sortByKey]
  | cons p rest ih => exact insertByKey_sorted p (sortByKey rest) ih

/-- Two permutation-equivalent association lists with duplicate-free keys
sort identically: the canonical serialization is insertion-order-free. -/
lemma sortByKey_eq_of_perm {α : Type} (l₁ l₂ : List (String × α))
    (hp : l₁.Perm l₂) (hnd : (l₁.map Prod.fst).Nodup) :
    sortByKey l₁ = sortByKey l₂ := by
  haveI : IsAntisymm (String × α) (fun a b => a.1.toList < b.1.toList) :=
    ⟨fun a b h1 h2 => absurd (lt_trans h1 h2) (lt_irrefl _)⟩
  have hchain : (sortByKey l₁).Perm (sortByKey l₂) :=
    ((sortByKey_perm l₁).trans hp).trans (sortByKey_perm l₂).symm
  have hstrict : ∀ (l : List (String × α)), (l.map Prod.fst).Nodup →
      List.Sorted (fun a b => a.1.toList < b.1.toList) (sortByKey l) := by
    intro l hl
    have hnds : ((sortByKey l).map Prod.fst).Nodup :=
      (((sortByKey_perm l).map Prod.fst).nodup_iff).mpr hl
    have hne : (sortByKey l).Pairwise (fun a b => a.1 ≠ b.1) :=
      List.pairwise_map.mp hnds
    have hle := sortByKey_sorted l
    refine (hle.and hne).imp ?_
    intro a b hab
    exact lt_of_le_of_ne hab.1 (fun hh => hab.2 (String.toList_inj.mp hh))
  have hnd₂ : (l₂.map Prod.fst).Nodup := ((hp.map Prod.fst).nodup_iff).mp hnd
  exact List.eq_of_perm_of_sorted hchain (hstrict l₁ hnd) (hstrict l₂ hnd₂)

/-- The canonical serialization input of `compute_row_hash`, as a function
of the filtered content only (up to permutation with unique keys). -/
lemma hashData_perm (data : Row) (exclude : List String) :
    (hashData data exclude).Perm
      ((data.filter (fun kv => !(exclude.contains kv.1) && !(kv.2.isNone))).map
        (fun kv => (kv.1, kv.2.pyStr))) := by
  exact List.Perm.map _ (List.Perm.filter _ (sortByKey_perm data))

lemma hashData_keys_nodup (data : Row) (exclude : List String)
    (hnd : (data.map Prod.fst).Nodup) :
    ((hashData data exclude).map Prod.fst).Nodup := by
  have hmm : (hashData data exclude).map Prod.fst
      = ((sortByKey data).filter
          (fun kv => !(exclude.contains kv.1) && !(kv.2.isNone))).map Prod.fst := by
    simp [hashData, List.map_map]
  rw [hmm]
  refine List.Nodup.sublist (List.Sublist.map Prod.fst (List.filter_sublist _)) ?_
  exact (((sortByKey_perm data).map Prod.fst).nodup_iff).mpr hnd

/-- Claim C2: rows with the same non-null, non-excluded key-value content —
in any insertion order, and differing only in metadata-excluded keys or
null-valued keys — hash identically. -/
theorem C2_row_hash_content_invariant (data1 data2 : Row)
    (hnd1 : (data1.map Prod.fst).Nodup) (hnd2 : (data2.map Prod.fst).Nodup)
    (hsame : (data1.filter
        (fun kv => !(defaultExclude.contains kv.1) && !(kv.2.isNone))).Perm
      (data2.filter
        (fun kv => !(defaultExclude.contains kv.1) && !(kv.2.isNone)))) :
    compute_row_hash data1 [] = compute_row_hash data2 [] := by
  have hex : (defaultExclude ++ ([] : List String)) = defaultExclude := by simp
  have hperm : (hashData data1 defaultExclude).Perm (hashData data2 defaultExclude) := by
    refine (hashData_perm data1 defaultExclude).trans
      (List.Perm.trans ?_ (hashData_perm data2 defaultExclude).symm)
    exact List.Perm.map _ hsame
  have heq : sortByKey (hashData data1 defaultExclude)
      = sortByKey (hashData data2 defaultExclude) :=
    sortByKey_eq_of_perm _ _ hperm (hashData_keys_nodup data1 defaultExclude hnd1)
  unfold compute_row_hash
  rw [hex, jsonObjSorted, jsonObjSorted, heq]

/-- Closed instance of `C2_row_hash_content_invariant`: reordered content,
an excluded `city_id` column and a null-valued column do not change the
hash. -/
theorem C2_row_hash_content_invariant_witness :
    (([("b", Value.str ("2")), ("a", Value.int 1), ("city_id", Value.int 9)].map
        Prod.fst).Nodup
      ∧ (([("a", Value.int 1), ("x", Value.none), ("b", Value.str ("2"))].map
        Prod.fst).Nodup)
      ∧ ([("b", Value.str ("2")), ("a", Value.int 1), ("city_id", Value.int 9)].filter
          (fun kv => !(defaultExclude.contains kv.1) && !(kv.2.isNone))).Perm
        ([("a", Value.int 1), ("x", Value.none), ("b", Value.str ("2"))].filter
          (fun kv => !(defaultExclude.contains kv.1) && !(kv.2.isNone))))
    ∧ compute_row_hash [("b", Value.str ("2")), ("a", Value.int 1), ("city_id", Value.int 9)] []
        = compute_row_hash [("a", Value.int 1), ("x", Value.none), ("b", Value.str ("2"))] [] :=
  ⟨⟨by decide, by decide, by decide⟩,
   C2_row_hash_content_invariant _ _ (by decide) (by decide) (by decide)⟩


/-! ## Supporting lemmas: digest shape -/

lemma hexDigitChar_mem (n : Nat) : hexDigitChar n ∈ hexChars := by
  have h16 : n % 16 < hexChars.length := by
    have : n % 16 < 16 := Nat.mod_lt _ (by norm_num)
    simpa [hexChars] using this
  rw [hexDigitChar, List.getD_eq_getElem _ _ h16]
  exact List.getElem_mem h16

lemma md5Digest_length (msg : List Nat) : (md5Digest msg).length = 16 := by
  simp [md5Digest, wordLEBytes]

lemma hexPairs_length (l : List Nat) :
    ((l.map (fun b => [hexDigitChar (b / 16), hexDigitChar b])).flatten).length
      = 2 * l.length := by
  induction l with
  | nil => rfl
  | cons b rest ih =>
    simp only [List.map_cons, List.flatten_cons, List.length_append, ih,
      List.length_cons, List.length_nil]
    omega

lemma md5Hex_length (msg : List Nat) : (md5Hex msg).length = 32 := by
  have h : (md5Hex msg).length
      = (((md5Digest msg).map
          (fun b => [hexDigitChar (b / 16), hexDigitChar b])).flatten).length := rfl
  rw [h, hexPairs_length, md5Digest_length]

lemma md5Hex_chars (msg : List Nat) :
    ∀ c ∈ (md5Hex msg).toList, c ∈ hexChars := by
  intro c hc
  have hc' : c ∈ ((md5Digest msg).map
      (fun b => [hexDigitChar (b / 16), hexDigitChar b])).flatten := hc
  rcases List.mem_flatten.mp hc' with ⟨sub, hsub, hcsub⟩
  rcases List.mem_map.mp hsub with ⟨b, _, hb⟩
  subst hb
  rcases List.mem_cons.mp hcsub with h | h
  · rw [h]; exact hexDigitChar_mem _
  · rcases List.mem_cons.mp h with h1 | h1
    · rw [h1]; exact hexDigitChar_mem _
    · simp at h1

/-- Claim C9: for a row with duplicate-free keys, `compute_row_hash` equals
the spec's drop/stringify/sort/serialize/MD5 pipeline, and its output is the
lowercase 32-character hex digest; the canonical conversion is a function of
the value, so equal timestamp instants contribute identical renderings. -/
theorem C9_row_hash_pipeline (data : Row) (hnd : (data.map Prod.fst).Nodup) :
    compute_row_hash data [] = specRowHash data
    ∧ (compute_row_hash data []).length = 32
    ∧ (∀ c ∈ (compute_row_hash data []).toList, c ∈ hexChars)
    ∧ (∀ (t u : PyDateTime), t = u →
        Value.pyStr (Value.timestamp t) = Value.pyStr (Value.timestamp u)) := by
  refine ⟨?_, md5Hex_length _, md5Hex_chars _, fun t u h => by rw [h]⟩
  have hex : (defaultExclude ++ ([] : List String)) = defaultExclude := by simp
  have heq : sortByKey (hashData data defaultExclude)
      = sortByKey ((data.filter
          (fun kv => !(defaultExclude.contains kv.1) && !(kv.2.isNone))).map
          (fun kv => (kv.1, kv.2.pyStr))) :=
    sortByKey_eq_of_perm _ _ (hashData_perm data defaultExclude)
      (hashData_keys_nodup data defaultExclude hnd)
  unfold compute_row_hash specRowHash
  rw [hex, jsonObjSorted, jsonObjSorted, heq]

/-- Closed instance of `C9_row_hash_pipeline` on a mixed-type row. -/
theorem C9_row_hash_pipeline_witness :
    (([("pid", Value.int 7), ("flag", Value.bool true),
        ("ts", Value.timestamp ⟨2024, 1, 2, 3, 4, 5, 70⟩)].map Prod.fst).Nodup)
    ∧ compute_row_hash [("pid", Value.int 7), ("flag", Value.bool true),
        ("ts", Value.timestamp ⟨2024, 1, 2, 3, 4, 5, 70⟩)] []
      = specRowHash [("pid", Value.int 7), ("flag", Value.bool true),
        ("ts", Value.timestamp ⟨2024, 1, 2, 3, 4, 5, 70⟩)]
    ∧ (compute_row_hash [("pid", Value.int 7), ("flag", Value.bool true),
        ("ts", Value.timestamp ⟨2024, 1, 2, 3, 4, 5, 70⟩)] []).length = 32 :=
  ⟨by decide,
   (C9_row_hash_pipeline _ (by decide)).1,
   (C9_row_hash_pipeline [("pid", Value.int 7), ("flag", Value.bool true),
      ("ts", Value.timestamp ⟨2024, 1, 2, 3, 4, 5, 70⟩)] (by decide)).2.1⟩

end CtScraper
